import Mathlib

/-!
# Hostel Attendance Tracker — verification of the core subsystem

Shallow embedding of `streamlit_app.py` (single-file Streamlit app backed by
Google Sheets).  The three worksheets (`Students`, `Attendance`, `Locks`) are
modelled as Lean lists of rows; each sheet-mutating code path is modelled as a
pure function from the old sheet state to the new one.  Spreadsheet cells are
modelled as `String`/`Nat`/`Bool` values.

Python string operations (`.upper()`, `.lower()`, `.strip()`) are modelled
character-wise over the string's character list (the cells involved are ASCII,
where Lean's `Char.toUpper`/`Char.toLower`/`Char.isWhitespace` agree with
Python).  pandas float arithmetic is modelled exactly over the rationals; the
attendance percentage, which the code stores as `((present/total)*100).round(2)`,
is represented by the integer number of hundredths it rounds to (numpy rounds
half to even), with a `ℚ`-valued view for stating claims.
-/

/-- Python `s.upper()` (ASCII). -/
def strUpper (s : String) : String := ⟨s.data.map Char.toUpper⟩

/-- Python `s.lower()` (ASCII). -/
def strLower (s : String) : String := ⟨s.data.map Char.toLower⟩

/-- Python `s.strip()`: drop leading and trailing whitespace. -/
def strTrim (s : String) : String :=
  ⟨((s.data.dropWhile Char.isWhitespace).reverse.dropWhile Char.isWhitespace).reverse⟩

/-- Python `needle in hay` on strings (also pandas `str.contains` for a plain,
non-regex pattern): substring test. -/
def strContains (hay needle : String) : Bool := decide (needle.data <:+: hay.data)

/-- A row of the `Students` worksheet.  The `active` cell is kept as the string
form of whatever is stored, because `normalize_active` inspects `astype(str)`
of the cell. -/
structure Student where
  student_id : Nat
  name : String
  active : String
deriving DecidableEq

/-- A row of the `Attendance` worksheet, as appended by `take_attendance`:
`[day, session, student_id, name, status]`. -/
structure AttRow where
  date : String
  session : String
  student_id : Nat
  name : String
  status : String
deriving DecidableEq

/-- A row of the `Locks` worksheet: `[day, session, locked]`. -/
structure LockRow where
  date : String
  session : String
  locked : Bool
deriving DecidableEq

/-- `SESSIONS = ["Morning", "Night"]` (config). -/
def SESSIONS : List String := ["Morning", "Night"]

/-- `STATUS_OPTIONS = ["P", "A", "L", "S", "SCH/CLG", "OI"]` (config). -/
def STATUS_OPTIONS : List String := ["P", "A", "L", "S", "SCH/CLG", "OI"]

/-- `normalize_active(col)`: `col.astype(str).str.upper().isin(["TRUE", "1", "YES"])`,
applied cell-wise.  No stripping: the raw string form is uppercased and
compared against the three literals. -/
def normalize_active (cell : String) : Bool :=
  (["TRUE", "1", "YES"] : List String).contains (strUpper cell)

/-- `load_students(active_only)`: reads the `Students` sheet, normalizes the
`active` column, and keeps only the active rows when `active_only` is true.
The sheet contents are passed in as `roster`. -/
def load_students (active_only : Bool) (roster : List Student) : List Student :=
  if active_only then roster.filter (fun st => normalize_active st.active) else roster

/-- `is_locked(day, session)`: scans the `Locks` rows and returns the `locked`
cell of the first row matching the key; absence of a row means unlocked. -/
def is_locked (day session : String) (locks : List LockRow) : Bool :=
  match locks.find? (fun r => r.date == day && r.session == session) with
  | some r => r.locked
  | none => false

/-- `set_lock(day, session, locked)`: scans the `Locks` rows; the first row
matching the key has its `locked` cell (`C{idx}`) updated in place and the
scan stops; if no row matches, `[day, session, locked]` is appended. -/
def set_lock (day session : String) (locked : Bool) : List LockRow → List LockRow
  | [] => [⟨day, session, locked⟩]
  | r :: rs =>
    if r.date == day && r.session == session then
      ⟨r.date, r.session, locked⟩ :: rs
    else
      r :: set_lock day session locked rs

/-- Number of `Locks` rows for a given `(day, session)` key. -/
def countKey (day session : String) (locks : List LockRow) : Nat :=
  locks.countP (fun r => r.date == day && r.session == session)

/-- `set_lock(day, session, true)` called `n` times in a row. -/
def setLockN (day session : String) : Nat → List LockRow → List LockRow
  | 0, locks => locks
  | n + 1, locks => setLockN day session n (set_lock day session true locks)

/-- Whether at least one `Attendance` row exists for a `(day, session)` key. -/
def hasSubmission (day session : String) (att : List AttRow) : Bool :=
  att.any (fun r => r.date == day && r.session == session)

/-- The three worksheets backing the app. -/
structure SheetsState where
  students : List Student
  attendance : List AttRow
  locks : List LockRow
deriving DecidableEq

/-- Outcome of the `take_attendance` flow for one submission attempt. -/
inductive SubmitResult where
  | lockConflict
  | noActiveStudents
  | committed (recordsWritten : Nat)
deriving DecidableEq

/-- A write against the backing store, in the order the code issues them. -/
inductive StoreEvent where
  | appendRecords (rows : List AttRow)
  | lockWrite (day session : String) (locked : Bool)
deriving DecidableEq

/-- Result of a submission attempt: UI-level result, new sheet state, and the
ordered trace of store writes issued. -/
structure SubmitOutcome where
  result : SubmitResult
  state : SheetsState
  events : List StoreEvent
deriving DecidableEq

/-- The rows `[[day, session, sid, name, status] for sid, status in attendance.items()]`
built by `take_attendance`: one row per active student, in roster order, with
the status chosen for that student (`marks`).  (The code looks the name up by
`student_id` in the same active roster it iterates over, which yields the
student's own `name` cell.) -/
def attendanceData (day session : String) (active : List Student)
    (marks : Nat → String) : List AttRow :=
  active.map (fun st => ⟨day, session, st.student_id, st.name, marks st.student_id⟩)

/-- `take_attendance()`, submission path.  Checked in code order:
1. if `is_locked(day, session)` and the user is not admin, stop (🔒 Session locked);
2. if the active roster is empty, stop (No active students);
3. otherwise on submit: `append_rows(data)` to `Attendance`, then
   `set_lock(day, session, True)`.
There is no other guard before the append. -/
def take_attendance (st : SheetsState) (day session : String) (isAdmin : Bool)
    (marks : Nat → String) : SubmitOutcome :=
  if is_locked day session st.locks && !isAdmin then
    ⟨.lockConflict, st, []⟩
  else
    let active := load_students true st.students
    if active.isEmpty then
      ⟨.noActiveStudents, st, []⟩
    else
      let data := attendanceData day session active marks
      ⟨.committed data.length,
        { st with
            attendance := st.attendance ++ data,
            locks := set_lock day session true st.locks },
        [.appendRecords data, .lockWrite day session true]⟩

/-- `df["status"].value_counts().reindex(STATUS_OPTIONS, fill_value=0)`: one
count per entry of `STATUS_OPTIONS`, in that order, `0` for statuses that do
not occur (`reindex` keeps exactly the requested keys and zero-fills). -/
def status_counts (df : List AttRow) : List (String × Nat) :=
  STATUS_OPTIONS.map (fun s => (s, df.countP (fun r => r.status == s)))

/-- `total = df.groupby("student_id").size()` evaluated at one student id. -/
def totalRecords (df : List AttRow) (sid : Nat) : Nat :=
  df.countP (fun r => r.student_id == sid)

/-- `present = df[df["status"] == "P"].groupby("student_id").size()` evaluated
at one student id. -/
def presentRecords (df : List AttRow) (sid : Nat) : Nat :=
  df.countP (fun r => r.student_id == sid && r.status == "P")

/-- Round `a / b` (for `0 < b`) to the nearest integer, ties to even — the
rounding mode of numpy/pandas `round`, applied to the exact quotient. -/
def roundDivHalfEven (a b : Nat) : Nat :=
  let q := a / b
  let r := a % b
  if 2 * r < b then q
  else if b < 2 * r then q + 1
  else if q % 2 = 0 then q else q + 1

/-- `((present / total) * 100).fillna(0).round(2)` for one student id,
represented exactly as the integer number of hundredths of a percent: a
student with records gets `(present/total)*100` rounded (half to even) to two
decimals, i.e. `(10000*present)/total` rounded to the nearest integer number
of hundredths; a student id absent from `present` is zero-filled, which the
quotient `present = 0` already yields.  Ids with no records at all do not
occur in `total`; they receive `0` from the final `report.fillna(0)`. -/
def percent_x100 (df : List AttRow) (sid : Nat) : Nat :=
  if totalRecords df sid = 0 then 0
  else roundDivHalfEven (10000 * presentRecords df sid) (totalRecords df sid)

/-- One row of the analytics `report` DataFrame (index `student_id`, columns
`Name`, `Attendance %`, `Total Records`).  `name` is `none` for an id that is
absent from the `Students` sheet (pandas leaves the cell NaN, then
`fillna(0)`).  `pct100` is the rounded `Attendance %` in hundredths. -/
structure ReportRow where
  student_id : Nat
  name : Option String
  pct100 : Nat
  total : Nat
deriving DecidableEq

/-- The `Attendance %` column value of a report row, as an exact rational. -/
def ReportRow.pct (r : ReportRow) : ℚ := (r.pct100 : ℚ) / 100

/-- The index of the `report` DataFrame: pandas aligns the `students` index
with the `percentage`/`total` indexes, producing the sorted union of the
student ids of the `Students` sheet and of the attendance rows. -/
def reportIds (students : List Student) (df : List AttRow) : List Nat :=
  List.insertionSort (· ≤ ·)
    ((students.map (fun st => st.student_id)) ++ df.map (fun r => r.student_id)).dedup

/-- `report = pd.DataFrame({"Name": students["name"], "Attendance %": percentage,
"Total Records": total}).fillna(0)` — one row per id of `reportIds`, with the
name looked up in the (unfiltered) `Students` sheet and zero-filled percentage
and record count. -/
def report (students : List Student) (df : List AttRow) : List ReportRow :=
  (reportIds students df).map (fun sid =>
    ⟨sid, (students.find? (fun st => st.student_id == sid)).map (fun st => st.name),
      percent_x100 df sid, totalRecords df sid⟩)

/-- Ascending order on the `Attendance %` column. -/
def pctAsc (a b : ReportRow) : Prop := a.pct100 ≤ b.pct100

/-- Descending order on the `Attendance %` column. -/
def pctDesc (a b : ReportRow) : Prop := b.pct100 ≤ a.pct100

instance : DecidableRel pctAsc := fun a b => inferInstanceAs (Decidable (a.pct100 ≤ b.pct100))

instance : DecidableRel pctDesc := fun a b => inferInstanceAs (Decidable (b.pct100 ≤ a.pct100))

instance : IsTotal ReportRow pctAsc := ⟨fun a b => Nat.le_total a.pct100 b.pct100⟩

instance : IsTrans ReportRow pctAsc := ⟨fun _ _ _ h h' => Nat.le_trans h h'⟩

instance : IsTotal ReportRow pctDesc := ⟨fun a b => Nat.le_total b.pct100 a.pct100⟩

instance : IsTrans ReportRow pctDesc := ⟨fun _ _ _ h h' => Nat.le_trans h' h⟩

/-- `red_flags = report[report["Attendance %"] < 75]`, displayed as
`red_flags.sort_values("Attendance %")` (ascending). -/
def red_flags (students : List Student) (df : List AttRow) : List ReportRow :=
  List.insertionSort pctAsc ((report students df).filter (fun r => r.pct100 < 7500))

/-- `leaderboard = report.sort_values("Attendance %", ascending=False).head(10)`. -/
def leaderboard (students : List Student) (df : List AttRow) : List ReportRow :=
  (List.insertionSort pctDesc (report students df)).take 10

/-- `get_next_student_id()`: `int(df["student_id"].max()) + 1` over the full
`Students` sheet, or `1` when the sheet is empty. -/
def get_next_student_id (roster : List Student) : Nat :=
  if roster.isEmpty then 1 else (roster.map (fun st => st.student_id)).foldl max 0 + 1

/-- The roster as displayed in `manage_students`: the full sheet, filtered by
`df["name"].str.lower().str.contains(search)` when the (stripped, lowercased)
search box is non-empty. -/
def searchFilter (roster : List Student) (search : String) : List Student :=
  if search == "" then roster
  else roster.filter (fun st => strContains (strLower st.name) search)

/-- Result of the `Add Student` form. -/
inductive AddResult where
  | nameRequired
  | duplicateName
  | added
deriving DecidableEq

/-- The `Add Student` form of `manage_students`: with the displayed (possibly
search-filtered) roster `df`, reject an empty stripped name; reject when
`name.lower()` is in `df["name"].str.lower().tolist()`; otherwise append
`[get_next_student_id(), name.strip(), True, ""]` to the `Students` sheet. -/
def add_student (roster : List Student) (search : String) (name : String) :
    AddResult × List Student :=
  let df := searchFilter roster search
  if strTrim name == "" then (.nameRequired, roster)
  else if (df.map (fun st => strLower st.name)).contains (strLower name) then
    (.duplicateName, roster)
  else
    (.added, roster ++ [⟨get_next_student_id roster, strTrim name, "True"⟩])

/-- `edited["name"].str.lower().duplicated().any()`: some lowercased name
occurs at least twice in the list. -/
def dupAny : List String → Bool
  | [] => false
  | x :: xs => xs.contains x || dupAny xs

/-- The `Save Changes` button of `manage_students`: if the edited table has
case-insensitively duplicated names, show an error and leave the sheet alone;
otherwise `ws.clear()` and write the edited table as the new sheet.  Returns
whether the save happened and the resulting `Students` sheet. -/
def save_changes (store edited : List Student) : Bool × List Student :=
  if dupAny (edited.map (fun st => strLower st.name)) then (false, store)
  else (true, edited)

/-! ## Lock Coordinator lemmas -/

/-- After one `set_lock` call on a `Locks` table holding at most one row for
the key, exactly one row for the key exists. -/
theorem countKey_set_lock (day session : String) (b : Bool) :
    ∀ locks : List LockRow, countKey day session locks ≤ 1 →
      countKey day session (set_lock day session b locks) = 1 := by
  intro locks
  induction locks with
  | nil => intro _; simp [countKey, set_lock]
  | cons r rs ih =>
    intro h
    by_cases hm : (r.date == day && r.session == session) = true
    · have h0 : rs.countP (fun x => x.date == day && x.session == session) = 0 := by
        simp only [countKey, List.countP_cons, hm, if_true] at h
        omega
      simp [set_lock, hm, countKey, List.countP_cons, h0]
    · have h' : countKey day session rs ≤ 1 := by
        simpa [countKey, List.countP_cons, hm] using h
      simp [set_lock, hm, countKey, List.countP_cons, ih h']
      simpa [countKey] using ih h'

/-- After `set_lock(day, session, true)` on a table holding at most one row
for the key, every row for the key has `locked = true`. -/
theorem set_lock_sets_locked (day session : String) :
    ∀ locks : List LockRow, countKey day session locks ≤ 1 →
      ∀ r ∈ set_lock day session true locks,
        r.date = day → r.session = session → r.locked = true := by
  intro locks
  induction locks with
  | nil =>
    intro _ r hr _ _
    simp only [set_lock, List.mem_singleton] at hr
    subst hr
    rfl
  | cons x xs ih =>
    intro h r hr hd hs
    by_cases hm : (x.date == day && x.session == session) = true
    · simp only [set_lock, hm, if_true, List.mem_cons] at hr
      rcases hr with hr | hr
      · subst hr; rfl
      · exfalso
        have h1 : 0 < xs.countP (fun y => y.date == day && y.session == session) :=
          List.countP_pos_iff.mpr ⟨r, hr, by simp [hd, hs]⟩
        simp only [countKey, List.countP_cons, hm, if_true] at h
        omega
    · simp only [set_lock, hm, if_false, Bool.false_eq_true, List.mem_cons] at hr
      rcases hr with hr | hr
      · subst hr
        exact absurd (by simp [hd, hs]) hm
      · exact ih (by simpa [countKey, List.countP_cons, hm] using h) r hr hd hs

/-- `set_lock` appends a row when no row for the key exists, and otherwise
updates in place (same length). -/
theorem set_lock_length (day session : String) (b : Bool) :
    ∀ locks : List LockRow, (set_lock day session b locks).length
      = if countKey day session locks = 0 then locks.length + 1 else locks.length := by
  intro locks
  induction locks with
  | nil => simp [set_lock, countKey]
  | cons x xs ih =>
    by_cases hm : (x.date == day && x.session == session) = true
    · simp [set_lock, hm, countKey, List.countP_cons]
    · have hck : countKey day session (x :: xs) = countKey day session xs := by
        simp [countKey, List.countP_cons, hm]
      simp only [set_lock]
      rw [if_neg hm, hck]
      simp only [List.length_cons, ih]
      by_cases h0 : countKey day session xs = 0
      · rw [if_pos h0, if_pos h0]
      · rw [if_neg h0, if_neg h0]

/-- **C3.** For every `(day, session)` key and every `N > 0`, starting from a
`Locks` table containing at most one row for that key, calling
`set_lock(day, session, true)` `N` times leaves exactly one row for that key,
that row has `locked = true`, and the table grew by one row when no row for
the key existed and is otherwise unchanged in length (update in place). -/
theorem set_lock_idempotent (day session : String) (N : Nat) (locks : List LockRow)
    (hcount : countKey day session locks ≤ 1) (hN : 0 < N) :
    countKey day session (setLockN day session N locks) = 1 ∧
    (∀ r ∈ setLockN day session N locks, r.date = day → r.session = session → r.locked = true) ∧
    (setLockN day session N locks).length
      = (if countKey day session locks = 0 then locks.length + 1 else locks.length) := by
  obtain ⟨n, rfl⟩ : ∃ n, N = n + 1 := ⟨N - 1, by omega⟩
  clear hN
  induction n generalizing locks with
  | zero =>
    refine ⟨?_, ?_, ?_⟩
    · simpa [setLockN] using countKey_set_lock day session true locks hcount
    · simpa [setLockN] using set_lock_sets_locked day session locks hcount
    · simpa [setLockN] using set_lock_length day session true locks
  | succ n ih =>
    have h1 : countKey day session (set_lock day session true locks) = 1 :=
      countKey_set_lock day session true locks hcount
    have ih' := ih (set_lock day session true locks) (by omega)
    refine ⟨?_, ?_, ?_⟩
    · simpa [setLockN] using ih'.1
    · simpa [setLockN] using ih'.2.1
    · have h2 := ih'.2.2
      rw [h1] at h2
      simp only [if_neg (by omega : ¬(1 = 0))] at h2
      have h3 := set_lock_length day session true locks
      calc (setLockN day session (n + 1 + 1) locks).length
          = (setLockN day session (n + 1) (set_lock day session true locks)).length := by
            simp [setLockN]
        _ = (set_lock day session true locks).length := h2
        _ = _ := h3

/-- Witness for C3 at a concrete input: three calls on an empty table leave
exactly one locked row. -/
theorem set_lock_idempotent_witness :
    countKey "2024-01-10" "Morning" (setLockN "2024-01-10" "Morning" 3 []) = 1 :=
  (set_lock_idempotent "2024-01-10" "Morning" 3 [] (by decide) (by decide)).1

/-! ## Attendance Ledger theorems -/

/-- **C4.** A submit for `(date, session)` is rejected with the lock-conflict
failure (🔒 Session locked) exactly when `is_locked(date, session)` is true
and the actor's role is not admin; in particular an admin's submit is never
stopped by the lock check. -/
theorem lock_conflict_iff (st : SheetsState) (day session : String) (isAdmin : Bool)
    (marks : Nat → String) :
    (take_attendance st day session isAdmin marks).result = .lockConflict ↔
      is_locked day session st.locks = true ∧ isAdmin = false := by
  unfold take_attendance
  by_cases h : (is_locked day session st.locks && !isAdmin) = true
  · rw [if_pos h]
    simp only [Bool.and_eq_true, Bool.not_eq_true'] at h
    simpa using h
  · rw [if_neg h]
    simp only [Bool.and_eq_true, Bool.not_eq_true'] at h
    by_cases he : (load_students true st.students).isEmpty = true
    · simp [he, h]
    · simp [he, h]

/-- Witness for C4 at a concrete input: a non-admin submit against a locked
key is rejected with the lock conflict. -/
theorem lock_conflict_iff_witness :
    (take_attendance ⟨[⟨1, "Alice", "True"⟩], [], [⟨"2024-01-10", "Morning", true⟩]⟩
        "2024-01-10" "Morning" false (fun _ => "P")).result = .lockConflict :=
  (lock_conflict_iff ⟨[⟨1, "Alice", "True"⟩], [], [⟨"2024-01-10", "Morning", true⟩]⟩
    "2024-01-10" "Morning" false (fun _ => "P")).mpr ⟨by decide, rfl⟩

/-- **C2.** In every successful submission the store writes are exactly
`append_rows(data)` followed by `set_lock(day, session, True)`: the record
append (event index 0) happens strictly before the lock write (event index 1),
and the new state reflects both writes. -/
theorem records_before_lock (st : SheetsState) (day session : String) (isAdmin : Bool)
    (marks : Nat → String) (n : Nat)
    (h : (take_attendance st day session isAdmin marks).result = .committed n) :
    ∃ rows : List AttRow,
      (take_attendance st day session isAdmin marks).events
        = [.appendRecords rows, .lockWrite day session true] ∧
      (take_attendance st day session isAdmin marks).state.attendance = st.attendance ++ rows ∧
      (take_attendance st day session isAdmin marks).state.locks
        = set_lock day session true st.locks := by
  unfold take_attendance at h ⊢
  by_cases hc : (is_locked day session st.locks && !isAdmin) = true
  · rw [if_pos hc] at h
    exact absurd h (by simp)
  · rw [if_neg hc] at h ⊢
    by_cases he : (load_students true st.students).isEmpty = true
    · simp [he] at h
    · refine ⟨attendanceData day session (load_students true st.students) marks, ?_, ?_, ?_⟩ <;>
        simp [he]

/-- Witness for C2 at a concrete input: a successful submit emits the append
event before the lock-write event. -/
theorem records_before_lock_witness :
    ∃ rows : List AttRow,
      (take_attendance ⟨[⟨1, "Alice", "True"⟩], [], []⟩
          "2024-01-10" "Morning" false (fun _ => "P")).events
        = [.appendRecords rows, .lockWrite "2024-01-10" "Morning" true] ∧
      (take_attendance ⟨[⟨1, "Alice", "True"⟩], [], []⟩
          "2024-01-10" "Morning" false (fun _ => "P")).state.attendance = [] ++ rows ∧
      (take_attendance ⟨[⟨1, "Alice", "True"⟩], [], []⟩
          "2024-01-10" "Morning" false (fun _ => "P")).state.locks
        = set_lock "2024-01-10" "Morning" true [] :=
  records_before_lock ⟨[⟨1, "Alice", "True"⟩], [], []⟩ "2024-01-10" "Morning" false
    (fun _ => "P") 1 (by decide)

/-- **C1, counterexample.** A state where an attendance record for
`(2024-01-10, Morning)` already exists but the lock flag is absent (the lock
write raced or was lost): a second non-admin submit is *not* rejected — the
code has no record-existence (`DuplicateSubmission`) check — and a second
record set is appended for the same key. -/
theorem second_submit_appends_second_set :
    hasSubmission "2024-01-10" "Morning"
      [⟨"2024-01-10", "Morning", 1, "Alice", "P"⟩] = true ∧
    (take_attendance ⟨[⟨1, "Alice", "True"⟩], [⟨"2024-01-10", "Morning", 1, "Alice", "P"⟩], []⟩
        "2024-01-10" "Morning" false (fun _ => "A")).result = .committed 1 ∧
    (take_attendance ⟨[⟨1, "Alice", "True"⟩], [⟨"2024-01-10", "Morning", 1, "Alice", "P"⟩], []⟩
        "2024-01-10" "Morning" false (fun _ => "A")).state.attendance
      = [⟨"2024-01-10", "Morning", 1, "Alice", "P"⟩,
         ⟨"2024-01-10", "Morning", 1, "Alice", "A"⟩] := by
  decide

/-- **C1, amended.** When attendance records already exist for
`(date, session)` and the actor is not admin, the outcome is decided by the
lock flag alone, not by the existing records: if the key is locked the submit
is rejected (as a lock conflict, with nothing appended), and if the lock flag
is unset (and the active roster is non-empty) the submit proceeds and appends
a second, non-empty record set for the key. -/
theorem submit_checks_lock_not_records (st : SheetsState) (day session : String)
    (marks : Nat → String) (hsub : hasSubmission day session st.attendance = true) :
    (is_locked day session st.locks = true →
      (take_attendance st day session false marks).result = .lockConflict ∧
      (take_attendance st day session false marks).state = st) ∧
    (is_locked day session st.locks = false →
      (load_students true st.students).isEmpty = false →
      ∃ rows : List AttRow, rows ≠ [] ∧
        (take_attendance st day session false marks).result = .committed rows.length ∧
        (take_attendance st day session false marks).state.attendance
          = st.attendance ++ rows) := by
  constructor
  · intro hl
    unfold take_attendance
    rw [if_pos (by simp [hl])]
    exact ⟨rfl, rfl⟩
  · intro hl he
    have hactive : load_students true st.students ≠ [] := by
      intro h0
      rw [h0] at he
      simp at he
    unfold take_attendance
    rw [if_neg (by simp [hl])]
    refine ⟨attendanceData day session (load_students true st.students) marks, ?_, ?_, ?_⟩
    · simpa [attendanceData] using hactive
    · simp [he]
    · simp [he]

/-- Witness for the amended C1 at a concrete input: with the lock set, the
second non-admin submit for an already-submitted key is rejected. -/
theorem submit_checks_lock_not_records_witness :
    (take_attendance ⟨[⟨1, "Alice", "True"⟩], [⟨"2024-01-10", "Morning", 1, "Alice", "P"⟩],
        [⟨"2024-01-10", "Morning", true⟩]⟩ "2024-01-10" "Morning" false
        (fun _ => "A")).result = .lockConflict :=
  ((submit_checks_lock_not_records
      ⟨[⟨1, "Alice", "True"⟩], [⟨"2024-01-10", "Morning", 1, "Alice", "P"⟩],
        [⟨"2024-01-10", "Morning", true⟩]⟩
      "2024-01-10" "Morning" (fun _ => "A") (by decide)).1 (by decide)).1

/-! ## Aggregator lemmas -/

/-- A student's `P` records are among their records. -/
theorem presentRecords_le_totalRecords (df : List AttRow) (sid : Nat) :
    presentRecords df sid ≤ totalRecords df sid := by
  induction df with
  | nil => simp [presentRecords, totalRecords]
  | cons r rs ih =>
    simp only [presentRecords, totalRecords, List.countP_cons] at *
    cases h1 : (r.student_id == sid) <;> cases h2 : (r.status == "P") <;>
      simp [h1, h2] <;> omega

/-- Rounding the quotient `a / b` half-to-even cannot exceed an integer bound
`C` that bounds the exact quotient. -/
theorem roundDivHalfEven_le (a b C : Nat) (hb : 0 < b) (h : a ≤ C * b) :
    roundDivHalfEven a b ≤ C := by
  have hq : a / b ≤ C := by
    have h1 := Nat.div_le_div_right (c := b) h
    rwa [Nat.mul_div_cancel _ hb] at h1
  have hql : a % b ≠ 0 → a / b < C := by
    intro hr
    have hne : a ≠ C * b := by
      intro he
      exact hr (by rw [he]; exact Nat.mul_mod_left C b)
    exact (Nat.div_lt_iff_lt_mul hb).mpr (lt_of_le_of_ne h hne)
  unfold roundDivHalfEven
  by_cases h1 : 2 * (a % b) < b
  · simpa [h1] using hq
  · have hr : a % b ≠ 0 := by omega
    have hlt := hql hr
    by_cases h2 : b < 2 * (a % b)
    · simp only [h1, if_false, h2, if_true]
      omega
    · by_cases h3 : a / b % 2 = 0 <;> simp only [h1, h2, h3, if_true, if_false] <;> omega

/-- Rounding half-to-even lands within `1/2` of the exact quotient. -/
theorem roundDivHalfEven_err (a b : Nat) (hb : 0 < b) :
    |(roundDivHalfEven a b : ℚ) - (a : ℚ) / b| ≤ 1 / 2 := by
  have hbq : (0 : ℚ) < b := by exact_mod_cast hb
  have hmod : (b : ℚ) * ((a / b : ℕ) : ℚ) + ((a % b : ℕ) : ℚ) = a := by
    exact_mod_cast Nat.div_add_mod a b
  have hdiv : (a : ℚ) / b = ((a / b : ℕ) : ℚ) + ((a % b : ℕ) : ℚ) / b := by
    field_simp
    linarith [hmod]
  have hr0 : (0 : ℚ) ≤ ((a % b : ℕ) : ℚ) := by positivity
  have hrb : ((a % b : ℕ) : ℚ) < b := by exact_mod_cast Nat.mod_lt a hb
  have hfr0 : (0 : ℚ) ≤ ((a % b : ℕ) : ℚ) / b := div_nonneg hr0 hbq.le
  have hfr1 : ((a % b : ℕ) : ℚ) / b < 1 := (div_lt_one hbq).mpr hrb
  unfold roundDivHalfEven
  by_cases h1 : 2 * (a % b) < b
  · have h1q : 2 * ((a % b : ℕ) : ℚ) < b := by exact_mod_cast h1
    have hhalf : ((a % b : ℕ) : ℚ) / b ≤ 1 / 2 := by
      rw [div_le_iff₀ hbq]
      linarith
    rw [if_pos h1, hdiv, abs_le]
    constructor <;> linarith
  · by_cases h2 : b < 2 * (a % b)
    · have h2q : (b : ℚ) < 2 * ((a % b : ℕ) : ℚ) := by exact_mod_cast h2
      have hhalf : 1 / 2 ≤ ((a % b : ℕ) : ℚ) / b := by
        rw [le_div_iff₀ hbq]
        linarith
      rw [if_neg h1, if_pos h2, hdiv]
      push_cast
      rw [abs_le]
      constructor <;> linarith
    · have h3 : 2 * (a % b) = b := by omega
      have h3q : 2 * ((a % b : ℕ) : ℚ) = b := by exact_mod_cast h3
      have hhalf : ((a % b : ℕ) : ℚ) / b = 1 / 2 := by
        rw [div_eq_iff hbq.ne']
        linarith
      rw [if_neg h1, if_neg h2]
      by_cases h4 : a / b % 2 = 0
      · rw [if_pos h4, hdiv, hhalf, abs_le]
        constructor <;> linarith
      · rw [if_neg h4, hdiv, hhalf]
        push_cast
        rw [abs_le]
        constructor <;> linarith

/-- Comparing the rational `Attendance %` values is comparing the stored
hundredths. -/
theorem pct_le_iff (x y : ReportRow) : x.pct ≤ y.pct ↔ x.pct100 ≤ y.pct100 := by
  unfold ReportRow.pct
  rw [div_le_div_iff_of_pos_right (by norm_num : (0 : ℚ) < 100)]
  exact_mod_cast Iff.rfl

/-- The `< 75` filter on the rational `Attendance %` value, in hundredths. -/
theorem pct_lt_75_iff (x : ReportRow) : x.pct < 75 ↔ x.pct100 < 7500 := by
  unfold ReportRow.pct
  rw [div_lt_iff₀ (by norm_num : (0 : ℚ) < 100)]
  norm_num

/-- **C8.** For every record set, the status distribution keys are exactly
`STATUS_OPTIONS` in order (no key is ever omitted), each status is paired with
the number of records carrying it, and a status occurring in no record is
paired with `0`. -/
theorem status_counts_complete (df : List AttRow) :
    (status_counts df).map Prod.fst = STATUS_OPTIONS ∧
    (∀ s ∈ STATUS_OPTIONS, (s, df.countP (fun r => r.status == s)) ∈ status_counts df) ∧
    (∀ s ∈ STATUS_OPTIONS, (∀ r ∈ df, r.status ≠ s) → (s, 0) ∈ status_counts df) := by
  refine ⟨rfl, ?_, ?_⟩
  · intro s hs
    exact List.mem_map_of_mem _ hs
  · intro s hs h0
    have hz : df.countP (fun r => r.status == s) = 0 := by
      rw [List.countP_eq_zero]
      intro r hr
      simpa using h0 r hr
    have h1 : (s, df.countP (fun r => r.status == s)) ∈ status_counts df :=
      List.mem_map_of_mem _ hs
    rwa [hz] at h1

/-- Witness for C8 at a concrete input: a record set with only `P` records
still yields a (zero) bucket for `L`. -/
theorem status_counts_complete_witness :
    ("L", 0) ∈ status_counts [⟨"2024-01-10", "Morning", 1, "Alice", "P"⟩] :=
  (status_counts_complete [⟨"2024-01-10", "Morning", 1, "Alice", "P"⟩]).2.2 "L"
    (by decide) (by decide)

/-- **C7, counterexample.** One `P` record out of three: the code stores
`round((1/3)*100, 2) = 33.33`, which is *not* equal to `100 * 1 / 3`. -/
theorem percentage_not_exact :
    presentRecords
        [⟨"2024-01-10", "Morning", 1, "Alice", "P"⟩,
         ⟨"2024-01-10", "Night", 1, "Alice", "A"⟩,
         ⟨"2024-01-11", "Morning", 1, "Alice", "A"⟩] 1 = 1 ∧
    totalRecords
        [⟨"2024-01-10", "Morning", 1, "Alice", "P"⟩,
         ⟨"2024-01-10", "Night", 1, "Alice", "A"⟩,
         ⟨"2024-01-11", "Morning", 1, "Alice", "A"⟩] 1 = 3 ∧
    percent_x100
        [⟨"2024-01-10", "Morning", 1, "Alice", "P"⟩,
         ⟨"2024-01-10", "Night", 1, "Alice", "A"⟩,
         ⟨"2024-01-11", "Morning", 1, "Alice", "A"⟩] 1 = 3333 ∧
    (percent_x100
        [⟨"2024-01-10", "Morning", 1, "Alice", "P"⟩,
         ⟨"2024-01-10", "Night", 1, "Alice", "A"⟩,
         ⟨"2024-01-11", "Morning", 1, "Alice", "A"⟩] 1 : ℚ) / 100
      ≠ 100 * (1 : ℚ) / 3 := by
  refine ⟨by decide, by decide, by decide, ?_⟩
  have h : percent_x100
      [⟨"2024-01-10", "Morning", 1, "Alice", "P"⟩,
       ⟨"2024-01-10", "Night", 1, "Alice", "A"⟩,
       ⟨"2024-01-11", "Morning", 1, "Alice", "A"⟩] 1 = 3333 := by decide
  rw [h]
  norm_num

/-- **C7, amended.** The stored attendance percentage is exactly `0` when the
person has zero records, always lies in `[0, 100]`, and for a person with
records it is `100 * present / total` rounded to two decimals (half to even),
hence within `1/200` of the exact value. -/
theorem percentage_spec (df : List AttRow) (sid : Nat) :
    (totalRecords df sid = 0 → (percent_x100 df sid : ℚ) / 100 = 0) ∧
    0 ≤ (percent_x100 df sid : ℚ) / 100 ∧
    (percent_x100 df sid : ℚ) / 100 ≤ 100 ∧
    (0 < totalRecords df sid →
      percent_x100 df sid
          = roundDivHalfEven (10000 * presentRecords df sid) (totalRecords df sid) ∧
      |(percent_x100 df sid : ℚ) / 100
          - (presentRecords df sid : ℚ) / (totalRecords df sid : ℚ) * 100| ≤ 1 / 200) := by
  refine ⟨?_, by positivity, ?_, ?_⟩
  · intro h
    simp [percent_x100, h]
  · by_cases h : totalRecords df sid = 0
    · simp [percent_x100, h]
    · have hb : 0 < totalRecords df sid := Nat.pos_of_ne_zero h
      have hle : percent_x100 df sid ≤ 10000 := by
        unfold percent_x100
        rw [if_neg h]
        exact roundDivHalfEven_le _ _ 10000 hb
          (Nat.mul_le_mul_left 10000 (presentRecords_le_totalRecords df sid))
      rw [div_le_iff₀ (by norm_num : (0 : ℚ) < 100)]
      exact_mod_cast hle
  · intro hb
    have heq : percent_x100 df sid
        = roundDivHalfEven (10000 * presentRecords df sid) (totalRecords df sid) := by
      unfold percent_x100
      rw [if_neg (Nat.pos_iff_ne_zero.mp hb)]
    refine ⟨heq, ?_⟩
    have herr := roundDivHalfEven_err (10000 * presentRecords df sid) (totalRecords df sid) hb
    have ht : (totalRecords df sid : ℚ) ≠ 0 := by
      exact_mod_cast Nat.pos_iff_ne_zero.mp hb
    have key : (presentRecords df sid : ℚ) / (totalRecords df sid : ℚ) * 100
        = ((10000 * presentRecords df sid : ℕ) : ℚ) / (totalRecords df sid : ℚ) / 100 := by
      push_cast
      field_simp
      ring
    rw [heq, key, div_sub_div_same, abs_div, abs_of_pos (by norm_num : (0 : ℚ) < 100)]
    rw [div_le_iff₀ (by norm_num : (0 : ℚ) < 100)]
    calc |(roundDivHalfEven (10000 * presentRecords df sid) (totalRecords df sid) : ℚ)
        - ((10000 * presentRecords df sid : ℕ) : ℚ) / (totalRecords df sid : ℚ)|
        ≤ 1 / 2 := herr
      _ = 1 / 200 * 100 := by norm_num

/-- Witness for C7 at concrete inputs: a person with no records gets exactly
`0`, and for `1` present of `3` the stored value is within `1/200` of
`(1/3)*100`. -/
theorem percentage_spec_witness :
    (percent_x100 [] 5 : ℚ) / 100 = 0 ∧
    |(percent_x100
        [⟨"2024-01-10", "Morning", 1, "Alice", "P"⟩,
         ⟨"2024-01-10", "Night", 1, "Alice", "A"⟩,
         ⟨"2024-01-11", "Morning", 1, "Alice", "A"⟩] 1 : ℚ) / 100
      - (presentRecords
          [⟨"2024-01-10", "Morning", 1, "Alice", "P"⟩,
           ⟨"2024-01-10", "Night", 1, "Alice", "A"⟩,
           ⟨"2024-01-11", "Morning", 1, "Alice", "A"⟩] 1 : ℚ)
        / (totalRecords
          [⟨"2024-01-10", "Morning", 1, "Alice", "P"⟩,
           ⟨"2024-01-10", "Night", 1, "Alice", "A"⟩,
           ⟨"2024-01-11", "Morning", 1, "Alice", "A"⟩] 1 : ℚ) * 100| ≤ 1 / 200 :=
  ⟨(percentage_spec [] 5).1 (by decide),
    ((percentage_spec
      [⟨"2024-01-10", "Morning", 1, "Alice", "P"⟩,
       ⟨"2024-01-10", "Night", 1, "Alice", "A"⟩,
       ⟨"2024-01-11", "Morning", 1, "Alice", "A"⟩] 1).2.2.2 (by decide)).2⟩

/-- **C5, counterexample.** The report is built from
`load_students(active_only=False)` and never filtered by the active flag: an
*inactive* student (active cell `"FALSE"`) with one `A` record appears in the
red-flag list, so the list does not contain only active people. -/
theorem red_flags_includes_inactive :
    red_flags [⟨1, "Ina", "FALSE"⟩] [⟨"2024-01-10", "Morning", 1, "Ina", "A"⟩]
      = [⟨1, some "Ina", 0, 1⟩] ∧
    normalize_active "FALSE" = false := by
  decide

/-- **C5, amended.** The red-flag list contains exactly the report rows —
one per student id appearing in the `Students` sheet or in the records,
*regardless of the active flag* — whose stored attendance percentage is
strictly below 75, ordered ascending by percentage. -/
theorem red_flags_spec (students : List Student) (df : List AttRow) :
    List.Sorted (fun x y : ReportRow => x.pct ≤ y.pct) (red_flags students df) ∧
    ∀ x : ReportRow, x ∈ red_flags students df ↔ x ∈ report students df ∧ x.pct < 75 := by
  constructor
  · have hs := List.sorted_insertionSort pctAsc
      ((report students df).filter (fun r => decide (r.pct100 < 7500)))
    exact List.Pairwise.imp (fun hab => (pct_le_iff _ _).mpr hab) hs
  · intro x
    unfold red_flags
    rw [List.mem_insertionSort, List.mem_filter]
    simp [pct_lt_75_iff]

/-- Witness for C5 at a concrete input: the flagged list of a small state is
sorted ascending by percentage. -/
theorem red_flags_spec_witness :
    List.Sorted (fun x y : ReportRow => x.pct ≤ y.pct)
      (red_flags [⟨1, "Ina", "FALSE"⟩] [⟨"2024-01-10", "Morning", 1, "Ina", "A"⟩]) :=
  (red_flags_spec [⟨1, "Ina", "FALSE"⟩] [⟨"2024-01-10", "Morning", 1, "Ina", "A"⟩]).1

/-- **C6, counterexample.** The leaderboard is `report.sort_values(...).head(10)`
with no minimum-record-count floor: a student with a single record (fewer
than 5) tops the leaderboard at 100%. -/
theorem leaderboard_ignores_min_records :
    leaderboard [⟨1, "Ace", "TRUE"⟩] [⟨"2024-01-10", "Morning", 1, "Ace", "P"⟩]
      = [⟨1, some "Ace", 10000, 1⟩] ∧
    (1 : Nat) < 5 := by
  decide

/-- **C6, amended.** The leaderboard holds at most 10 entries, is ordered
descending by stored percentage, and its rows come from the report — which
includes people regardless of active flag or record count; no minimum record
floor and no record-count/person-id tie-breaking is applied. -/
theorem leaderboard_spec (students : List Student) (df : List AttRow) :
    (leaderboard students df).length ≤ 10 ∧
    List.Sorted (fun x y : ReportRow => y.pct ≤ x.pct) (leaderboard students df) ∧
    ∀ x ∈ leaderboard students df, x ∈ report students df := by
  refine ⟨?_, ?_, ?_⟩
  · unfold leaderboard
    rw [List.length_take]
    exact min_le_left _ _
  · unfold leaderboard
    have hs := List.sorted_insertionSort pctDesc (report students df)
    have hp := hs.sublist (List.take_sublist 10 (List.insertionSort pctDesc (report students df)))
    exact List.Pairwise.imp (fun hab => (pct_le_iff _ _).mpr hab) hp
  · intro x hx
    unfold leaderboard at hx
    exact (List.mem_insertionSort pctDesc).mp (List.mem_of_mem_take hx)

/-- Witness for C6 at a concrete input: a leaderboard row is a report row. -/
theorem leaderboard_spec_witness :
    (⟨1, some "Ace", 10000, 1⟩ : ReportRow)
      ∈ report [⟨1, "Ace", "TRUE"⟩] [⟨"2024-01-10", "Morning", 1, "Ace", "P"⟩] :=
  (leaderboard_spec [⟨1, "Ace", "TRUE"⟩] [⟨"2024-01-10", "Morning", 1, "Ace", "P"⟩]).2.2
    ⟨1, some "Ace", 10000, 1⟩ (by decide)

/-! ## Roster management theorems -/

/-- **C9, counterexample.** With `"Alice"` on the roster, adding the name
`"Alice "` (trailing space) is *accepted*: the duplicate check lowercases the
raw input (`"alice " ∉ ["alice"]`) but the appended row stores the *stripped*
name, so the saved roster ends up with two case-insensitively (here even
exactly) equal names — the uniqueness invariant is violated. -/
theorem add_student_whitespace_dup :
    (add_student [⟨1, "Alice", "True"⟩] "" "Alice ").1 = .added ∧
    (add_student [⟨1, "Alice", "True"⟩] "" "Alice ").2
      = [⟨1, "Alice", "True"⟩, ⟨2, "Alice", "True"⟩] ∧
    dupAny ((add_student [⟨1, "Alice", "True"⟩] "" "Alice ").2.map
      (fun st => strLower st.name)) = true := by
  decide

/-- **C9, amended.** The `Add Student` form rejects a name as a duplicate
exactly when its *raw* lowercased form equals the lowercase of a name in the
*displayed* (possibly search-filtered) roster — names that differ only by
surrounding whitespace, or duplicates hidden by an active search filter, are
not rejected — and a rejected add leaves the sheet unchanged.  The
`Save Changes` path does reject an edited roster containing case-insensitively
duplicated names, leaving the sheet unchanged. -/
theorem roster_name_checks (roster : List Student) (search name : String) :
    ((add_student roster search name).1 = .duplicateName ↔
      strTrim name ≠ "" ∧
        strLower name ∈ (searchFilter roster search).map (fun st => strLower st.name)) ∧
    ((add_student roster search name).1 = .duplicateName →
      (add_student roster search name).2 = roster) ∧
    (∀ store edited : List Student,
      dupAny (edited.map (fun st => strLower st.name)) = true →
      save_changes store edited = (false, store)) := by
  refine ⟨?_, ?_, ?_⟩
  · by_cases hn : strTrim name = ""
    · simp [add_student, hn]
    · by_cases hm : strLower name ∈ (searchFilter roster search).map (fun st => strLower st.name)
      · simp [add_student, hn, hm]
      · simp [add_student, hn, hm]
  · intro h
    by_cases hn : strTrim name = ""
    · simp [add_student, hn] at h
    · by_cases hm : strLower name ∈ (searchFilter roster search).map (fun st => strLower st.name)
      · simp [add_student, hn, hm]
      · simp [add_student, hn, hm] at h
  · intro store edited h
    simp [save_changes, h]

/-- Witness for the amended C9 at a concrete input: saving an edited roster
with the names `Bob` and `bob` is rejected and leaves the sheet unchanged. -/
theorem roster_name_checks_witness :
    save_changes [⟨1, "Alice", "True"⟩] [⟨2, "Bob", "True"⟩, ⟨3, "bob", "True"⟩]
      = (false, [⟨1, "Alice", "True"⟩]) :=
  (roster_name_checks [] "" "x").2.2 [⟨1, "Alice", "True"⟩]
    [⟨2, "Bob", "True"⟩, ⟨3, "bob", "True"⟩] (by decide)

/-- **C10.** A roster row is treated as active exactly when the uppercased
string form of its `active` cell is one of `TRUE`, `1`, `YES`; values such as
`"T"`, `"active"` or `" TRUE"` (whitespace is not stripped) are inactive, and
`load_students(True)` — the roster used for attendance taking — keeps exactly
the rows whose `active` cell normalizes to true. -/
theorem normalize_active_spec :
    (∀ cell : String,
      normalize_active cell = true ↔
        strUpper cell = "TRUE" ∨ strUpper cell = "1" ∨ strUpper cell = "YES") ∧
    normalize_active "T" = false ∧
    normalize_active "active" = false ∧
    normalize_active " TRUE" = false ∧
    normalize_active "true" = true ∧
    (∀ (roster : List Student) (st : Student),
      st ∈ load_students true roster ↔ st ∈ roster ∧ normalize_active st.active = true) := by
  refine ⟨?_, by decide, by decide, by decide, by decide, ?_⟩
  · intro cell
    simp [normalize_active, List.elem_iff]
  · intro roster st
    simp [load_students, List.mem_filter]

/-- Witness for C10 at concrete inputs: `"true"` normalizes to active. -/
theorem normalize_active_spec_witness : normalize_active "true" = true :=
  normalize_active_spec.2.2.2.2.1

